import Mathlib

/-!
Verification of the zombie-deletion engine of this repository.

The Go source (storage ceph utilities) is shallowly embedded:

* Go strings become `List Char` (`GoStr`); the helper `subIdx` models
  `strings.Index` (returning `none` for Go's `-1`).
* `parseParent` and `parseClone` are the NameCodec parse functions,
  translated statement by statement from the source, including the
  reassignments of the mutable variables `idx`, `slider`, `volumeType`
  and `volumeName`.
* `composeClone` and `composeParent` are the `fmt.Sprintf` composition
  formats `%s/%s_%s` and `%s/%s_%s@%s` used throughout the source.
* The mutually recursive engine `cephContainerDelete` and
  `cephContainerSnapshotDelete` is embedded as a fuel-indexed function
  `engineRun` over an abstract backend oracle `Backend`; every backend
  invocation is recorded in an operation trace (`Op`).
-/

/-- Go strings, modelled as lists of characters. -/
abbrev GoStr := List Char

/-- The reserved zombie marker `zombie_` used by the naming convention. -/
def zombieMark : GoStr := "zombie_".data

/-- Model of Go `strings.Index pat`: the first index at which `pat`
occurs as a substring, `none` when Go would return `-1`. -/
def subIdx (pat : GoStr) : GoStr → Option Nat
  | [] => if pat = [] then some 0 else none
  | c :: rest =>
      if pat.isPrefixOf (c :: rest) then some 0
      else (subIdx pat rest).map (· + 1)

/-- Translation of the source function `parseParent`: splits
`pool/[zombie_]type_name@snap` into `(pool, type, name, snap)`,
returning `none` where the Go function returns a parsing error. -/
def parseParent (parent : GoStr) : Option (GoStr × GoStr × GoStr × GoStr) :=
  match subIdx ['/'] parent with
  | none => none
  | some idx0 =>
    let slider0 := parent.drop (idx0 + 1)
    let poolName := parent.take idx0
    let zIdx := subIdx zombieMark slider0
    let idx : Option Nat :=
      if zIdx = some 0 then some (0 + zombieMark.length) else zIdx
    let volumeType0 := slider0
    let slider :=
      if zIdx = some 0 then slider0.drop zombieMark.length else slider0
    match subIdx ['_'] slider with
    | none => none
    | some idxType0 =>
      let idxType :=
        if idx = some zombieMark.length then idxType0 + zombieMark.length
        else idxType0
      let volumeType := volumeType0.take idxType
      match subIdx ['_'] slider with
      | none => none
      | some _ =>
        let volumeName0 := slider
        match subIdx ['_'] volumeName0 with
        | none => none
        | some idx2 =>
          let volumeName1 := volumeName0.drop (idx2 + 1)
          match subIdx ['@'] volumeName1 with
          | none => none
          | some idx3 =>
            let snapshotName := volumeName1.drop (idx3 + 1)
            let volumeName := volumeName1.take idx3
            some (poolName, volumeType, volumeName, snapshotName)

/-- Translation of the source function `parseClone`: splits
`pool/[zombie_]type_name` into `(pool, type, name)`, returning `none`
where the Go function returns a parsing error. -/
def parseClone (clone : GoStr) : Option (GoStr × GoStr × GoStr) :=
  match subIdx ['/'] clone with
  | none => none
  | some idx0 =>
    let slider0 := clone.drop (idx0 + 1)
    let poolName := clone.take idx0
    let zIdx := subIdx zombieMark slider0
    let idx : Option Nat :=
      if zIdx = some 0 then some (0 + zombieMark.length) else zIdx
    let volumeType0 := slider0
    let slider :=
      if zIdx = some 0 then slider0.drop zombieMark.length else slider0
    match subIdx ['_'] slider with
    | none => none
    | some idxType0 =>
      let idxType :=
        if idx = some zombieMark.length then idxType0 + zombieMark.length
        else idxType0
      let volumeType := volumeType0.take idxType
      match subIdx ['_'] slider with
      | none => none
      | some _ =>
        let volumeName0 := slider
        match subIdx ['_'] volumeName0 with
        | none => none
        | some idx2 =>
          let volumeName := volumeName0.drop (idx2 + 1)
          some (poolName, volumeType, volumeName)

/-- The volume composition format `%s/%s_%s` used by the source. -/
def composeClone (pool typ name : GoStr) : GoStr :=
  pool ++ ('/' :: (typ ++ ('_' :: name)))

/-- The snapshot composition format `%s/%s_%s@%s` used by the source. -/
def composeParent (pool typ name snap : GoStr) : GoStr :=
  pool ++ ('/' :: (typ ++ ('_' :: (name ++ ('@' :: snap)))))

/-- A type tag, optionally carrying the zombie marker. -/
def zform (z : Bool) (typ : GoStr) : GoStr :=
  if z then zombieMark ++ typ else typ

/-- Backend failure classification: `notFound` models `db.NoSuchObjectError`,
`backendErr` any other error value returned by a ceph helper. -/
inductive BErr
  | notFound
  | backendErr
  deriving DecidableEq, Repr

/-- One backend operation issued by the engine, with the identifier
arguments the corresponding ceph helper receives.  Cluster name and user
name are threaded through the Go code unchanged and are omitted. -/
inductive Op
  | listSnapshots (pool vol typ : GoStr)
  | listClones (pool vol typ snap : GoStr)
  | getParent (pool vol typ : GoStr)
  | volUnmap (pool vol typ : GoStr)
  | volDelete (pool vol typ : GoStr)
  | volMarkDeleted (pool vol typ : GoStr)
  | snapUnprotect (pool vol typ snap : GoStr)
  | snapUnmap (pool vol typ snap : GoStr)
  | snapDelete (pool vol typ snap : GoStr)
  | snapRename (pool vol typ snapOld snapNew : GoStr)
  deriving DecidableEq, Repr

/-- Abstract oracle for the ceph backend: one field per helper the
deletion engine calls, keyed by the same identifier arguments. -/
structure Backend where
  listSnapshots : GoStr → GoStr → GoStr → Except BErr (List GoStr)
  listClones : GoStr → GoStr → GoStr → GoStr → Except BErr (List GoStr)
  getParent : GoStr → GoStr → GoStr → Except BErr GoStr
  volUnmap : GoStr → GoStr → GoStr → Except BErr Unit
  volDelete : GoStr → GoStr → GoStr → Except BErr Unit
  volMarkDeleted : GoStr → GoStr → GoStr → Except BErr Unit
  snapUnprotect : GoStr → GoStr → GoStr → GoStr → Except BErr Unit
  snapUnmap : GoStr → GoStr → GoStr → GoStr → Except BErr Unit
  snapDelete : GoStr → GoStr → GoStr → GoStr → Except BErr Unit
  snapRename : GoStr → GoStr → GoStr → GoStr → GoStr → Except BErr Unit

/-- Result of an engine loop: `fail tr` models an early `return -1`
with the trace `tr` accumulated by the aborted iteration, `done` a
completed loop together with its accumulator and trace. -/
inductive LoopRes (α : Type)
  | fail (tr : List Op)
  | done (acc : α) (tr : List Op)
  deriving DecidableEq, Repr

/-- The operation trace carried by a loop result. -/
def LoopRes.trace {α : Type} : LoopRes α → List Op
  | .fail tr => tr
  | .done _ tr => tr

/-- The per-snapshot loop of `cephContainerDelete`: runs `sd` on every
snapshot name, propagates a negative result, and counts how many calls
returned `1` (marked zombie), exactly as the Go `for` loop does. -/
def vdSnapLoop (sd : GoStr → Option (Int × List Op)) :
    List GoStr → Nat → Option (LoopRes Nat)
  | [], zombies => some (.done zombies [])
  | snap :: rest, zombies =>
    match sd snap with
    | none => none
    | some (ret, trS) =>
      if ret < 0 then some (.fail trS)
      else
        match vdSnapLoop sd rest (if ret = 1 then zombies + 1 else zombies) with
        | none => none
        | some (.fail tr) => some (.fail (trS ++ tr))
        | some (.done z tr) => some (.done z (trS ++ tr))

/-- The per-clone loop of `cephContainerSnapshotDelete`: parses each
clone, skips (and vetoes) clones that are not zombie-prefixed, runs `vd`
on zombie-prefixed ones, propagates a negative result and records a
marked-zombie result as a veto, exactly as the Go `for` loop does. -/
def sdCloneLoop (vd : GoStr → GoStr → GoStr → Option (Int × List Op)) :
    List GoStr → Bool → Option (LoopRes Bool)
  | [], canDelete => some (.done canDelete [])
  | clone :: rest, canDelete =>
    match parseClone clone with
    | none => some (.fail [])
    | some (clonePool, cloneType, cloneName) =>
      if zombieMark.isPrefixOf cloneType then
        match vd clonePool cloneName cloneType with
        | none => none
        | some (ret, trV) =>
          if ret < 0 then some (.fail trV)
          else
            match sdCloneLoop vd rest (if ret = 1 then false else canDelete) with
            | none => none
            | some (.fail tr) => some (.fail (trV ++ tr))
            | some (.done b tr) => some (.done b (trV ++ tr))
      else sdCloneLoop vd rest false

/-- A call into the engine: the volume case (`cephContainerDelete`) or
the snapshot case (`cephContainerSnapshotDelete`). -/
inductive Call
  | vol (pool vol typ : GoStr)
  | snap (pool vol typ snap : GoStr)
  deriving DecidableEq, Repr

/-- The mutually recursive deletion engine, fuel-indexed.  `none` means
the fuel ran out; `some (r, tr)` is the C-style result (`-1` error, `0`
deleted, `1` marked zombie) together with the trace of backend
operations issued, in order.  Each equation mirrors the corresponding
Go statement of `cephContainerDelete` / `cephContainerSnapshotDelete`. -/
def engineRun (B : Backend) : Nat → Call → Option (Int × List Op)
  | 0, _ => none
  | Nat.succ fuel, .vol poolName volumeName volumeType =>
    let lsOp := Op.listSnapshots poolName volumeName volumeType
    match B.listSnapshots poolName volumeName volumeType with
    | .ok snaps =>
      match vdSnapLoop
          (fun snap => engineRun B fuel (.snap poolName volumeName volumeType snap))
          snaps 0 with
      | none => none
      | some (.fail tr) => some (-1, lsOp :: tr)
      | some (.done zombies tr) =>
        if zombies > 0 then
          let umOp := Op.volUnmap poolName volumeName volumeType
          match B.volUnmap poolName volumeName volumeType with
          | .error _ => some (-1, lsOp :: tr ++ [umOp])
          | .ok _ =>
            if zombieMark.isPrefixOf volumeType then
              some (1, lsOp :: tr ++ [umOp])
            else
              let mdOp := Op.volMarkDeleted poolName volumeName volumeType
              match B.volMarkDeleted poolName volumeName volumeType with
              | .error _ => some (-1, lsOp :: tr ++ [umOp, mdOp])
              | .ok _ => some (1, lsOp :: tr ++ [umOp, mdOp])
        else some (0, lsOp :: tr)
    | .error e =>
      if e ≠ BErr.notFound then some (-1, [lsOp])
      else
        let gpOp := Op.getParent poolName volumeName volumeType
        match B.getParent poolName volumeName volumeType with
        | .ok parent =>
          match parseParent parent with
          | none => some (-1, [lsOp, gpOp])
          | some (_, parentVolumeType, parentVolumeName, parentSnapshotName) =>
            let umOp := Op.volUnmap poolName volumeName volumeType
            match B.volUnmap poolName volumeName volumeType with
            | .error _ => some (-1, [lsOp, gpOp, umOp])
            | .ok _ =>
              let dlOp := Op.volDelete poolName volumeName volumeType
              match B.volDelete poolName volumeName volumeType with
              | .error _ => some (-1, [lsOp, gpOp, umOp, dlOp])
              | .ok _ =>
                if zombieMark.isPrefixOf parentVolumeType
                    ∨ zombieMark.isPrefixOf parentSnapshotName then
                  match engineRun B fuel
                      (.snap poolName parentVolumeName parentVolumeType
                        parentSnapshotName) with
                  | none => none
                  | some (ret, trS) =>
                    if ret < 0 then some (-1, [lsOp, gpOp, umOp, dlOp] ++ trS)
                    else some (0, [lsOp, gpOp, umOp, dlOp] ++ trS)
                else some (0, [lsOp, gpOp, umOp, dlOp])
        | .error e2 =>
          if e2 ≠ BErr.notFound then some (-1, [lsOp, gpOp])
          else
            let umOp := Op.volUnmap poolName volumeName volumeType
            match B.volUnmap poolName volumeName volumeType with
            | .error _ => some (-1, [lsOp, gpOp, umOp])
            | .ok _ =>
              let dlOp := Op.volDelete poolName volumeName volumeType
              match B.volDelete poolName volumeName volumeType with
              | .error _ => some (-1, [lsOp, gpOp, umOp, dlOp])
              | .ok _ => some (0, [lsOp, gpOp, umOp, dlOp])
  | Nat.succ fuel, .snap poolName volumeName volumeType snapshotName =>
    let lcOp := Op.listClones poolName volumeName volumeType snapshotName
    match B.listClones poolName volumeName volumeType snapshotName with
    | .error e =>
      if e ≠ BErr.notFound then some (-1, [lcOp])
      else
        let upOp := Op.snapUnprotect poolName volumeName volumeType snapshotName
        match B.snapUnprotect poolName volumeName volumeType snapshotName with
        | .error _ => some (-1, [lcOp, upOp])
        | .ok _ =>
          let umOp := Op.snapUnmap poolName volumeName volumeType snapshotName
          match B.snapUnmap poolName volumeName volumeType snapshotName with
          | .error _ => some (-1, [lcOp, upOp, umOp])
          | .ok _ =>
            let dlOp := Op.snapDelete poolName volumeName volumeType snapshotName
            match B.snapDelete poolName volumeName volumeType snapshotName with
            | .error _ => some (-1, [lcOp, upOp, umOp, dlOp])
            | .ok _ =>
              if zombieMark.isPrefixOf volumeType then
                match engineRun B fuel (.vol poolName volumeName volumeType) with
                | none => none
                | some (ret, trV) =>
                  if ret < 0 then some (-1, [lcOp, upOp, umOp, dlOp] ++ trV)
                  else some (0, [lcOp, upOp, umOp, dlOp] ++ trV)
              else some (0, [lcOp, upOp, umOp, dlOp])
    | .ok clones =>
      match sdCloneLoop
          (fun cPool cName cType => engineRun B fuel (.vol cPool cName cType))
          clones true with
      | none => none
      | some (.fail tr) => some (-1, lcOp :: tr)
      | some (.done canDelete tr) =>
        if canDelete then
          let upOp := Op.snapUnprotect poolName volumeName volumeType snapshotName
          match B.snapUnprotect poolName volumeName volumeType snapshotName with
          | .error _ => some (-1, lcOp :: tr ++ [upOp])
          | .ok _ =>
            let umOp := Op.snapUnmap poolName volumeName volumeType snapshotName
            match B.snapUnmap poolName volumeName volumeType snapshotName with
            | .error _ => some (-1, lcOp :: tr ++ [upOp, umOp])
            | .ok _ =>
              let dlOp := Op.snapDelete poolName volumeName volumeType snapshotName
              match B.snapDelete poolName volumeName volumeType snapshotName with
              | .error _ => some (-1, lcOp :: tr ++ [upOp, umOp, dlOp])
              | .ok _ =>
                if zombieMark.isPrefixOf volumeType then
                  match engineRun B fuel (.vol poolName volumeName volumeType) with
                  | none => none
                  | some (ret, trV) =>
                    if ret < 0 then
                      some (-1, lcOp :: tr ++ [upOp, umOp, dlOp] ++ trV)
                    else some (1, lcOp :: tr ++ [upOp, umOp, dlOp] ++ trV)
                else some (1, lcOp :: tr ++ [upOp, umOp, dlOp])
        else
          if zombieMark.isPrefixOf snapshotName then some (1, lcOp :: tr)
          else
            let umOp := Op.snapUnmap poolName volumeName volumeType snapshotName
            match B.snapUnmap poolName volumeName volumeType snapshotName with
            | .error _ => some (-1, lcOp :: tr ++ [umOp])
            | .ok _ =>
              let rnOp := Op.snapRename poolName volumeName volumeType
                snapshotName (zombieMark ++ snapshotName)
              match B.snapRename poolName volumeName volumeType snapshotName
                  (zombieMark ++ snapshotName) with
              | .error _ => some (-1, lcOp :: tr ++ [umOp, rnOp])
              | .ok _ => some (1, lcOp :: tr ++ [umOp, rnOp])

/-- The source entry point `cephContainerDelete` (volume deletion). -/
def cephContainerDelete (B : Backend) (fuel : Nat)
    (poolName volumeName volumeType : GoStr) : Option (Int × List Op) :=
  engineRun B fuel (.vol poolName volumeName volumeType)

/-- The source entry point `cephContainerSnapshotDelete`. -/
def cephContainerSnapshotDelete (B : Backend) (fuel : Nat)
    (poolName volumeName volumeType snapshotName : GoStr) :
    Option (Int × List Op) :=
  engineRun B fuel (.snap poolName volumeName volumeType snapshotName)

/-- A backend on which every enumeration and parent lookup reports
`NoSuchObjectError` and every state-changing helper succeeds. -/
def bareBackend : Backend where
  listSnapshots := fun _ _ _ => .error .notFound
  listClones := fun _ _ _ _ => .error .notFound
  getParent := fun _ _ _ => .error .notFound
  volUnmap := fun _ _ _ => .ok ()
  volDelete := fun _ _ _ => .ok ()
  volMarkDeleted := fun _ _ _ => .ok ()
  snapUnprotect := fun _ _ _ _ => .ok ()
  snapUnmap := fun _ _ _ _ => .ok ()
  snapDelete := fun _ _ _ _ => .ok ()
  snapRename := fun _ _ _ _ _ => .ok ()

/-- Backend for the C1 scenario: snapshot `p/container_v@s0` has the
single clone `p/zombie_container_c0`; the clone itself has no snapshots
and no parent, so its recursive deletion fully succeeds. -/
def backendC1 : Backend :=
  { bareBackend with
    listClones := fun pool vol typ snap =>
      if pool = "p".data ∧ vol = "v".data ∧ typ = "container".data
          ∧ snap = "s0".data then
        .ok ["p/zombie_container_c0".data]
      else .error .notFound }

/-- Backend for the C2 scenario: volume `p/container_v` has the single
snapshot `s0`, which has no clones. -/
def backendC2 : Backend :=
  { bareBackend with
    listSnapshots := fun pool vol typ =>
      if pool = "p".data ∧ vol = "v".data ∧ typ = "container".data then
        .ok ["s0".data]
      else .error .notFound }

/-- Backend for the C6 counterexample: volume `p/container_v` has no
snapshots and reports the parent `q/container_pv@zombie_ps`, whose
owning volume type tag carries no zombie marker while its snapshot
name does. -/
def backendC6 : Backend :=
  { bareBackend with
    getParent := fun pool vol typ =>
      if pool = "p".data ∧ vol = "v".data ∧ typ = "container".data then
        .ok "q/container_pv@zombie_ps".data
      else .error .notFound }

/-- The operation trace of the C1 scenario: the clone is swept
recursively, then the snapshot itself is unprotected, unmapped and
physically deleted. -/
def traceC1 : List Op :=
  [Op.listClones "p".data "v".data "container".data "s0".data,
   Op.listSnapshots "p".data "c0".data "zombie_container".data,
   Op.getParent "p".data "c0".data "zombie_container".data,
   Op.volUnmap "p".data "c0".data "zombie_container".data,
   Op.volDelete "p".data "c0".data "zombie_container".data,
   Op.snapUnprotect "p".data "v".data "container".data "s0".data,
   Op.snapUnmap "p".data "v".data "container".data "s0".data,
   Op.snapDelete "p".data "v".data "container".data "s0".data]

/-- The operation trace of the C2 scenario: the single snapshot is
swept (it has no clones), and nothing else happens. -/
def traceC2 : List Op :=
  [Op.listSnapshots "p".data "v".data "container".data,
   Op.listClones "p".data "v".data "container".data "s0".data,
   Op.snapUnprotect "p".data "v".data "container".data "s0".data,
   Op.snapUnmap "p".data "v".data "container".data "s0".data,
   Op.snapDelete "p".data "v".data "container".data "s0".data]

/-- Backend for the C5 witness: snapshot `p/container_v@zombie_s0` has
one clone that is not zombie-prefixed, so it cannot be deleted. -/
def backendC5 : Backend :=
  { bareBackend with
    listClones := fun pool vol typ snap =>
      if pool = "p".data ∧ vol = "v".data ∧ typ = "container".data
          ∧ snap = "zombie_s0".data then
        .ok ["q/container_b".data]
      else .error .notFound }

/-- The operation trace of the C6 counterexample: the volume is
deleted, then the parent snapshot is swept recursively although its
owning type tag carries no zombie marker (only its snapshot name
does). -/
def traceC6 : List Op :=
  [Op.listSnapshots "p".data "v".data "container".data,
   Op.getParent "p".data "v".data "container".data,
   Op.volUnmap "p".data "v".data "container".data,
   Op.volDelete "p".data "v".data "container".data,
   Op.listClones "p".data "pv".data "container".data "zombie_ps".data,
   Op.snapUnprotect "p".data "pv".data "container".data "zombie_ps".data,
   Op.snapUnmap "p".data "pv".data "container".data "zombie_ps".data,
   Op.snapDelete "p".data "pv".data "container".data "zombie_ps".data]

theorem isPrefixOf_append_left (l r : GoStr) : l.isPrefixOf (l ++ r) = true := by
  induction l with
  | nil => simp [List.isPrefixOf]
  | cons a l ih => simp [List.isPrefixOf, ih]

theorem subIdx_of_isPrefixOf (pat s : GoStr) (h : pat.isPrefixOf s = true) :
    subIdx pat s = some 0 := by
  cases s with
  | nil =>
    cases pat with
    | nil => rfl
    | cons a l => simp [List.isPrefixOf] at h
  | cons c rest => simp [subIdx, h]

theorem subIdx_single_append (c : Char) (l r : GoStr) (h : c ∉ l) :
    subIdx [c] (l ++ c :: r) = some l.length := by
  induction l with
  | nil => simp [subIdx, List.isPrefixOf]
  | cons a l ih =>
    have hca : (c == a) = false := by
      simp only [beq_eq_false_iff_ne, ne_eq]
      intro e
      exact h (by simp [e])
    have hml : c ∉ l := fun hm => h (List.mem_cons_of_mem _ hm)
    simp [subIdx, List.isPrefixOf, hca, ih hml]

theorem drop_len_cons_append (l : GoStr) (c : Char) (r : GoStr) :
    (l ++ c :: r).drop (l.length + 1) = r := by
  have h : l ++ c :: r = (l ++ [c]) ++ r := by simp
  rw [h]
  exact List.drop_left' (by simp)

theorem take_len_cons_append (l : GoStr) (c : Char) (r : GoStr) :
    (l ++ c :: r).take l.length = l :=
  List.take_left' rfl

/-- Running `parseClone` on a zombie-prefixed composed volume identifier
recovers exactly the components, keeping the `zombie_` marker attached
to the type tag. -/
theorem parseClone_compose_zombie (pool typ name : GoStr)
    (hp : '/' ∉ pool) (ht : '_' ∉ typ) :
    parseClone (composeClone pool (zombieMark ++ typ) name)
      = some (pool, zombieMark ++ typ, name) := by
  have h1 : subIdx ['/'] (pool ++ ('/' :: ((zombieMark ++ typ) ++ ('_' :: name))))
      = some pool.length := subIdx_single_append '/' pool _ hp
  have hdrop : (pool ++ ('/' :: ((zombieMark ++ typ) ++ ('_' :: name)))).drop
      (pool.length + 1) = (zombieMark ++ typ) ++ ('_' :: name) :=
    drop_len_cons_append pool '/' _
  have htake : (pool ++ ('/' :: ((zombieMark ++ typ) ++ ('_' :: name)))).take
      pool.length = pool := take_len_cons_append pool '/' _
  have h2 : subIdx zombieMark ((zombieMark ++ typ) ++ ('_' :: name)) = some 0 := by
    rw [List.append_assoc]
    exact subIdx_of_isPrefixOf _ _ (isPrefixOf_append_left _ _)
  have hdrop2 : ((zombieMark ++ typ) ++ ('_' :: name)).drop zombieMark.length
      = typ ++ ('_' :: name) := by
    rw [List.append_assoc]
    exact List.drop_left' rfl
  have h3 : subIdx ['_'] (typ ++ ('_' :: name)) = some typ.length :=
    subIdx_single_append '_' typ name ht
  have htake2 : ((zombieMark ++ typ) ++ ('_' :: name)).take
      (typ.length + zombieMark.length) = zombieMark ++ typ :=
    List.take_left' (by simp [Nat.add_comm])
  have hdrop3 : (typ ++ ('_' :: name)).drop (typ.length + 1) = name :=
    drop_len_cons_append typ '_' name
  simp only [parseClone, composeClone, h1, hdrop, htake, h2, hdrop2, h3,
    htake2, hdrop3, Nat.zero_add, eq_self_iff_true, if_true, if_false,
    Option.some.injEq, and_self]

/-- Running `parseClone` on a composed volume identifier without zombie marker
recovers exactly the components, provided the reserved substring
`zombie_` does not occur at offset `0` or at offset `7` of the part
after the pool separator. -/
theorem parseClone_compose_plain (pool typ name : GoStr)
    (hp : '/' ∉ pool) (ht : '_' ∉ typ)
    (hz : ∀ i, subIdx zombieMark (typ ++ ('_' :: name)) = some i →
      i ≠ 0 ∧ i ≠ zombieMark.length) :
    parseClone (composeClone pool typ name) = some (pool, typ, name) := by
  have h1 : subIdx ['/'] (pool ++ ('/' :: (typ ++ ('_' :: name))))
      = some pool.length := subIdx_single_append '/' pool _ hp
  have hdrop : (pool ++ ('/' :: (typ ++ ('_' :: name)))).drop
      (pool.length + 1) = typ ++ ('_' :: name) :=
    drop_len_cons_append pool '/' _
  have htake : (pool ++ ('/' :: (typ ++ ('_' :: name)))).take
      pool.length = pool := take_len_cons_append pool '/' _
  have h3 : subIdx ['_'] (typ ++ ('_' :: name)) = some typ.length :=
    subIdx_single_append '_' typ name ht
  have htake2 : (typ ++ ('_' :: name)).take typ.length = typ :=
    take_len_cons_append typ '_' name
  have hdrop3 : (typ ++ ('_' :: name)).drop (typ.length + 1) = name :=
    drop_len_cons_append typ '_' name
  have hc1 : ¬ subIdx zombieMark (typ ++ ('_' :: name)) = some 0 := by
    intro hsome
    exact (hz 0 hsome).1 rfl
  have hc2 : ¬ subIdx zombieMark (typ ++ ('_' :: name)) = some zombieMark.length := by
    intro hsome
    exact (hz zombieMark.length hsome).2 rfl
  simp only [parseClone, composeClone, h1, hdrop, htake, h3, htake2, hdrop3,
    hc1, hc2, eq_self_iff_true, if_true, if_false, iff_false,
    Option.some.injEq, and_self]

/-- Running `parseParent` on a zombie-prefixed composed snapshot identifier
recovers exactly the components: the `zombie_` marker stays attached to
the type tag and the snapshot-name component is returned verbatim. -/
theorem parseParent_compose_zombie (pool typ name snap : GoStr)
    (hp : '/' ∉ pool) (ht : '_' ∉ typ) (hn : '@' ∉ name) :
    parseParent (composeParent pool (zombieMark ++ typ) name snap)
      = some (pool, zombieMark ++ typ, name, snap) := by
  have h1 : subIdx ['/']
      (pool ++ ('/' :: ((zombieMark ++ typ) ++ ('_' :: (name ++ ('@' :: snap))))))
      = some pool.length := subIdx_single_append '/' pool _ hp
  have hdrop : (pool ++ ('/' :: ((zombieMark ++ typ) ++ ('_' :: (name ++ ('@' :: snap)))))).drop
      (pool.length + 1) = (zombieMark ++ typ) ++ ('_' :: (name ++ ('@' :: snap))) :=
    drop_len_cons_append pool '/' _
  have htake : (pool ++ ('/' :: ((zombieMark ++ typ) ++ ('_' :: (name ++ ('@' :: snap)))))).take
      pool.length = pool := take_len_cons_append pool '/' _
  have h2 : subIdx zombieMark ((zombieMark ++ typ) ++ ('_' :: (name ++ ('@' :: snap))))
      = some 0 := by
    rw [List.append_assoc]
    exact subIdx_of_isPrefixOf _ _ (isPrefixOf_append_left _ _)
  have hdrop2 : ((zombieMark ++ typ) ++ ('_' :: (name ++ ('@' :: snap)))).drop
      zombieMark.length = typ ++ ('_' :: (name ++ ('@' :: snap))) := by
    rw [List.append_assoc]
    exact List.drop_left' rfl
  have h3 : subIdx ['_'] (typ ++ ('_' :: (name ++ ('@' :: snap))))
      = some typ.length := subIdx_single_append '_' typ _ ht
  have htake2 : ((zombieMark ++ typ) ++ ('_' :: (name ++ ('@' :: snap)))).take
      (typ.length + zombieMark.length) = zombieMark ++ typ :=
    List.take_left' (by simp [Nat.add_comm])
  have hdrop3 : (typ ++ ('_' :: (name ++ ('@' :: snap)))).drop (typ.length + 1)
      = name ++ ('@' :: snap) := drop_len_cons_append typ '_' _
  have h4 : subIdx ['@'] (name ++ ('@' :: snap)) = some name.length :=
    subIdx_single_append '@' name snap hn
  have hdrop4 : (name ++ ('@' :: snap)).drop (name.length + 1) = snap :=
    drop_len_cons_append name '@' snap
  have htake4 : (name ++ ('@' :: snap)).take name.length = name :=
    take_len_cons_append name '@' snap
  simp only [parseParent, composeParent, h1, hdrop, htake, h2, hdrop2, h3,
    htake2, hdrop3, h4, hdrop4, htake4, Nat.zero_add, eq_self_iff_true,
    if_true, if_false, Option.some.injEq, and_self]

/-- Running `parseParent` on a composed snapshot identifier without zombie
marker on the type tag recovers exactly the components, provided the
reserved substring `zombie_` does not occur at offset `0` or `7` of the
part after the pool separator. -/
theorem parseParent_compose_plain (pool typ name snap : GoStr)
    (hp : '/' ∉ pool) (ht : '_' ∉ typ) (hn : '@' ∉ name)
    (hz : ∀ i, subIdx zombieMark (typ ++ ('_' :: (name ++ ('@' :: snap)))) = some i →
      i ≠ 0 ∧ i ≠ zombieMark.length) :
    parseParent (composeParent pool typ name snap)
      = some (pool, typ, name, snap) := by
  have h1 : subIdx ['/'] (pool ++ ('/' :: (typ ++ ('_' :: (name ++ ('@' :: snap))))))
      = some pool.length := subIdx_single_append '/' pool _ hp
  have hdrop : (pool ++ ('/' :: (typ ++ ('_' :: (name ++ ('@' :: snap)))))).drop
      (pool.length + 1) = typ ++ ('_' :: (name ++ ('@' :: snap))) :=
    drop_len_cons_append pool '/' _
  have htake : (pool ++ ('/' :: (typ ++ ('_' :: (name ++ ('@' :: snap)))))).take
      pool.length = pool := take_len_cons_append pool '/' _
  have h3 : subIdx ['_'] (typ ++ ('_' :: (name ++ ('@' :: snap))))
      = some typ.length := subIdx_single_append '_' typ _ ht
  have htake2 : (typ ++ ('_' :: (name ++ ('@' :: snap)))).take typ.length = typ :=
    take_len_cons_append typ '_' _
  have hdrop3 : (typ ++ ('_' :: (name ++ ('@' :: snap)))).drop (typ.length + 1)
      = name ++ ('@' :: snap) := drop_len_cons_append typ '_' _
  have h4 : subIdx ['@'] (name ++ ('@' :: snap)) = some name.length :=
    subIdx_single_append '@' name snap hn
  have hdrop4 : (name ++ ('@' :: snap)).drop (name.length + 1) = snap :=
    drop_len_cons_append name '@' snap
  have htake4 : (name ++ ('@' :: snap)).take name.length = name :=
    take_len_cons_append name '@' snap
  have hc1 : ¬ subIdx zombieMark (typ ++ ('_' :: (name ++ ('@' :: snap)))) = some 0 := by
    intro hsome
    exact (hz 0 hsome).1 rfl
  have hc2 : ¬ subIdx zombieMark (typ ++ ('_' :: (name ++ ('@' :: snap))))
      = some zombieMark.length := by
    intro hsome
    exact (hz zombieMark.length hsome).2 rfl
  simp only [parseParent, composeParent, h1, hdrop, htake, h3, htake2, hdrop3,
    h4, hdrop4, htake4, hc1, hc2, eq_self_iff_true, if_true, if_false,
    iff_false, Option.some.injEq, and_self]

/-- C4, counterexample.  Two well-formed identifiers break the
round-trip contract.  On `p/abcdef_zombie_y` (pool `p`, delimiter-free
type tag `abcdef`, name `zombie_y`) `parseClone` succeeds, yet
recomposing the returned components does not give the identifier back:
the first occurrence of `zombie_` sits at byte offset 7 of the
post-pool part, which makes `parseClone` extend the type tag through
the reserved marker.  On `p/zombie_y` (type tag `zombie`, name `y`)
`parseClone` strips `zombie_` as if it were the zombie marker and then
fails, so no components are returned at all. -/
theorem claim_c4_roundtrip_counterexample :
    (("p/abcdef_zombie_y".data
        = composeClone "p".data "abcdef".data "zombie_y".data
      ∧ '/' ∉ "p".data ∧ '_' ∉ "abcdef".data)
    ∧ (parseClone "p/abcdef_zombie_y".data).map
        (fun r => composeClone r.1 r.2.1 r.2.2)
      ≠ some "p/abcdef_zombie_y".data)
    ∧ (("p/zombie_y".data = composeClone "p".data "zombie".data "y".data
      ∧ '/' ∉ "p".data ∧ '_' ∉ "zombie".data)
    ∧ parseClone "p/zombie_y".data = none) := by
  exact ⟨⟨⟨by decide, by decide, by decide⟩, by decide⟩,
    ⟨⟨by decide, by decide, by decide⟩, by decide⟩⟩

/-- C4, amended.  Round-trip of the name codec: for every well-formed
identifier whose components are delimiter-free and in which, when the
type tag carries no zombie marker, the reserved substring `zombie_`
does not occur at offset 0 or at offset 7 (its own length) of the
post-pool part, recomposing the parsed components yields the identifier
back, for both the volume form and the snapshot form. -/
theorem claim_c4_roundtrip_amended (pool typ name snap : GoStr) (z : Bool)
    (hp : '/' ∉ pool) (ht : '_' ∉ typ) (hn : '@' ∉ name)
    (hzc : z = false → ∀ i, subIdx zombieMark (typ ++ ('_' :: name)) = some i →
      i ≠ 0 ∧ i ≠ zombieMark.length)
    (hzp : z = false →
      ∀ i, subIdx zombieMark (typ ++ ('_' :: (name ++ ('@' :: snap)))) = some i →
        i ≠ 0 ∧ i ≠ zombieMark.length) :
    (parseClone (composeClone pool (zform z typ) name)).map
        (fun r => composeClone r.1 r.2.1 r.2.2)
      = some (composeClone pool (zform z typ) name)
    ∧ (parseParent (composeParent pool (zform z typ) name snap)).map
        (fun r => composeParent r.1 r.2.1 r.2.2.1 r.2.2.2)
      = some (composeParent pool (zform z typ) name snap) := by
  cases z with
  | true =>
    rw [show zform true typ = zombieMark ++ typ from rfl,
      parseClone_compose_zombie pool typ name hp ht,
      parseParent_compose_zombie pool typ name snap hp ht hn]
    exact ⟨rfl, rfl⟩
  | false =>
    rw [show zform false typ = typ from rfl,
      parseClone_compose_plain pool typ name hp ht (hzc rfl),
      parseParent_compose_plain pool typ name snap hp ht hn (hzp rfl)]
    exact ⟨rfl, rfl⟩

/-- Witness for the amended C4 at concrete zombie-prefixed input. -/
theorem claim_c4_roundtrip_witness :
    ('/' ∉ "p".data ∧ '_' ∉ "container".data ∧ '@' ∉ "foo".data)
    ∧ ((parseClone (composeClone "p".data (zform true "container".data)
          "foo".data)).map (fun r => composeClone r.1 r.2.1 r.2.2)
        = some (composeClone "p".data (zform true "container".data) "foo".data)
      ∧ (parseParent (composeParent "p".data (zform true "container".data)
          "foo".data "s0".data)).map
            (fun r => composeParent r.1 r.2.1 r.2.2.1 r.2.2.2)
        = some (composeParent "p".data (zform true "container".data)
            "foo".data "s0".data)) :=
  ⟨⟨by decide, by decide, by decide⟩,
    claim_c4_roundtrip_amended "p".data "container".data "foo".data "s0".data
      true (by decide) (by decide) (by decide)
      (fun h => Bool.noConfusion h) (fun h => Bool.noConfusion h)⟩

/-- C10.  On zombie-prefixed identifiers the parse functions return the
type-tag component with the `zombie_` marker still attached, and
`parseParent` returns the snapshot-name component verbatim (whatever
marker it carries); the functions return plain string components and no
liveness flag, so the engine decides liveness by prefix tests on these
strings (`strings.HasPrefix(.., "zombie_")` in the source). -/
theorem claim_c10_zombie_tag_verbatim (pool typ name snap : GoStr)
    (hp : '/' ∉ pool) (ht : '_' ∉ typ) (hn : '@' ∉ name) :
    parseClone (composeClone pool (zombieMark ++ typ) name)
      = some (pool, zombieMark ++ typ, name)
    ∧ parseParent (composeParent pool (zombieMark ++ typ) name snap)
      = some (pool, zombieMark ++ typ, name, snap) :=
  ⟨parseClone_compose_zombie pool typ name hp ht,
    parseParent_compose_zombie pool typ name snap hp ht hn⟩

/-- Witness for C10, with a snapshot name that itself carries the
zombie marker and is returned verbatim. -/
theorem claim_c10_witness :
    ('/' ∉ "p".data ∧ '_' ∉ "container".data ∧ '@' ∉ "foo".data)
    ∧ (parseClone (composeClone "p".data (zombieMark ++ "container".data)
          "foo".data)
        = some ("p".data, zombieMark ++ "container".data, "foo".data)
      ∧ parseParent (composeParent "p".data (zombieMark ++ "container".data)
          "foo".data "zombie_s0".data)
        = some ("p".data, zombieMark ++ "container".data, "foo".data,
            "zombie_s0".data)) :=
  ⟨⟨by decide, by decide, by decide⟩,
    claim_c10_zombie_tag_verbatim "p".data "container".data "foo".data
      "zombie_s0".data (by decide) (by decide) (by decide)⟩

/-- C1.  Code bug: on a snapshot whose clone enumeration succeeds, whose
single clone is zombie-prefixed and whose recursive `cephContainerDelete`
returns `0` (Deleted), the function does unprotect, unmap and physically
delete the snapshot, but the `canDelete` branch of
`cephContainerSnapshotDelete` falls through to the final `return 1`, so
the call reports `1` (MarkedZombie) instead of the `0` (Deleted) outcome
required by the claim and by the function's own return-value doc
comment. -/
theorem claim_c1_code_bug_eval :
    cephContainerSnapshotDelete backendC1 3 "p".data "v".data
        "container".data "s0".data = some (1, traceC1)
      ∧ Op.snapDelete "p".data "v".data "container".data "s0".data ∈ traceC1
      ∧ (1 : Int) ≠ 0 := by
  refine ⟨by rfl, by decide, by decide⟩

/-- C2.  Code bug: when the snapshot enumeration succeeds and every
per-snapshot `cephContainerSnapshotDelete` call returns `0` (the zombie
count is zero), `cephContainerDelete` falls out of the `err == nil`
branch straight to the final `return 0`: it never queries `GetParent`,
never unmaps and never physically deletes the volume, although it
reports the Deleted outcome, contradicting the claim and the function's
own doc comment that `0` means the volume has been deleted. -/
theorem claim_c2_code_bug_eval :
    cephContainerDelete backendC2 3 "p".data "v".data "container".data
        = some (0, traceC2)
      ∧ Op.getParent "p".data "v".data "container".data ∉ traceC2
      ∧ Op.volUnmap "p".data "v".data "container".data ∉ traceC2
      ∧ Op.volDelete "p".data "v".data "container".data ∉ traceC2 := by
  refine ⟨by rfl, by decide, by decide, by decide⟩

/-- C8.  Idempotence: when the backend reports the volume absent at
every probe (`NoSuchObjectError` from the snapshot enumeration and from
the parent lookup) and the idempotent unmap and delete helpers succeed,
`cephContainerDelete` returns the Deleted outcome `0`, not a failure. -/
theorem claim_c8_already_deleted_noop (B : Backend) (fuel : Nat)
    (p v t : GoStr)
    (hls : B.listSnapshots p v t = .error .notFound)
    (hgp : B.getParent p v t = .error .notFound)
    (hum : B.volUnmap p v t = .ok ())
    (hdl : B.volDelete p v t = .ok ()) :
    cephContainerDelete B (fuel + 1) p v t
      = some (0, [Op.listSnapshots p v t, Op.getParent p v t,
          Op.volUnmap p v t, Op.volDelete p v t]) := by
  simp [cephContainerDelete, engineRun, hls, hgp, hum, hdl]

/-- Witness for C8 at a concrete backend and volume. -/
theorem claim_c8_witness :
    (bareBackend.listSnapshots "p".data "v".data "container".data
        = .error .notFound
      ∧ bareBackend.getParent "p".data "v".data "container".data
        = .error .notFound
      ∧ bareBackend.volUnmap "p".data "v".data "container".data = .ok ()
      ∧ bareBackend.volDelete "p".data "v".data "container".data = .ok ())
    ∧ cephContainerDelete bareBackend 1 "p".data "v".data "container".data
      = some (0, [Op.listSnapshots "p".data "v".data "container".data,
          Op.getParent "p".data "v".data "container".data,
          Op.volUnmap "p".data "v".data "container".data,
          Op.volDelete "p".data "v".data "container".data]) :=
  ⟨⟨rfl, rfl, rfl, rfl⟩,
    claim_c8_already_deleted_noop bareBackend 0 "p".data "v".data
      "container".data rfl rfl rfl rfl⟩

/-- C5.  When clone enumeration succeeds and the clone loop finishes
with `canDelete = false`: an already zombie-prefixed snapshot is left
untouched (no backend operation beyond the enumeration and the loop)
and the call returns `1`; otherwise the snapshot is unmapped, renamed
to its zombie-prefixed form and the call returns `1`.  A clone that is
not zombie-prefixed makes the loop continue with `canDelete = false`
without issuing any backend operation for that clone. -/
theorem claim_c5_marked_zombie (B : Backend) (fuel : Nat)
    (p v t s : GoStr) (cs : List GoStr) (trL : List Op)
    (hcl : B.listClones p v t s = .ok cs)
    (hloop : sdCloneLoop
        (fun cPool cName cType => engineRun B fuel (.vol cPool cName cType))
        cs true = some (.done false trL)) :
    (zombieMark.isPrefixOf s = true →
      cephContainerSnapshotDelete B (fuel + 1) p v t s
        = some (1, Op.listClones p v t s :: trL))
    ∧ (zombieMark.isPrefixOf s = false →
      B.snapUnmap p v t s = .ok () →
      B.snapRename p v t s (zombieMark ++ s) = .ok () →
      cephContainerSnapshotDelete B (fuel + 1) p v t s
        = some (1, Op.listClones p v t s :: trL
            ++ [Op.snapUnmap p v t s,
                Op.snapRename p v t s (zombieMark ++ s)]))
    ∧ (∀ (vd : GoStr → GoStr → GoStr → Option (Int × List Op))
        (clone : GoStr) (rest : List GoStr) (acc : Bool)
        (cp ct cn : GoStr),
        parseClone clone = some (cp, ct, cn) →
        zombieMark.isPrefixOf ct = false →
        sdCloneLoop vd (clone :: rest) acc = sdCloneLoop vd rest false) := by
  refine ⟨?_, ?_, ?_⟩
  · intro hzs
    simp [cephContainerSnapshotDelete, engineRun, hcl, hloop, hzs]
  · intro hzs hum hrn
    simp [cephContainerSnapshotDelete, engineRun, hcl, hloop, hzs, hum, hrn]
  · intro vd clone rest acc cp ct cn hparse hzc
    simp [sdCloneLoop, hparse, hzc]

/-- Witness for C5: a snapshot with one live (non-zombie) clone. -/
theorem claim_c5_witness :
    (backendC5.listClones "p".data "v".data "container".data
        "zombie_s0".data = .ok ["q/container_b".data]
      ∧ sdCloneLoop
          (fun cPool cName cType => engineRun backendC5 0 (.vol cPool cName cType))
          ["q/container_b".data] true = some (.done false [])
      ∧ zombieMark.isPrefixOf "zombie_s0".data = true)
    ∧ cephContainerSnapshotDelete backendC5 1 "p".data "v".data
        "container".data "zombie_s0".data
      = some (1, [Op.listClones "p".data "v".data "container".data
          "zombie_s0".data]) :=
  ⟨⟨rfl, by decide, by decide⟩,
    (claim_c5_marked_zombie backendC5 0 "p".data "v".data "container".data
      "zombie_s0".data ["q/container_b".data] [] rfl (by decide)).1
      (by decide)⟩

/-- C6, counterexample.  The parent `q/container_pv@zombie_ps` has a
type tag without zombie marker, yet after deleting the volume the code
recursively sweeps the parent snapshot (the source condition is a
disjunction over the type tag and the snapshot name), contradicting
the claim that no recursive sweep happens when the owning entity is
not zombie-prefixed. -/
theorem claim_c6_counterexample :
    zombieMark.isPrefixOf "container".data = false
    ∧ backendC6.getParent "p".data "v".data "container".data
      = .ok "q/container_pv@zombie_ps".data
    ∧ parseParent "q/container_pv@zombie_ps".data
      = some ("q".data, "container".data, "pv".data, "zombie_ps".data)
    ∧ cephContainerDelete backendC6 3 "p".data "v".data "container".data
      = some (0, traceC6)
    ∧ Op.listClones "p".data "pv".data "container".data "zombie_ps".data
      ∈ traceC6 := by
  exact ⟨by decide, rfl, by decide, by rfl, by decide⟩

/-- C6, amended.  After unmapping and deleting a volume with parent
snapshot `P`, `cephContainerDelete` recursively calls the snapshot
deletion on `P` if and only if `P`'s type tag or `P`'s snapshot name is
zombie-prefixed; when neither is, no recursive sweep is attempted and
`0` (Deleted) is returned directly. -/
theorem claim_c6_parent_sweep_amended (B : Backend) (fuel : Nat)
    (p v t parentStr pp pt pn ps : GoStr)
    (hls : B.listSnapshots p v t = .error .notFound)
    (hgp : B.getParent p v t = .ok parentStr)
    (hpp : parseParent parentStr = some (pp, pt, pn, ps))
    (hum : B.volUnmap p v t = .ok ())
    (hdl : B.volDelete p v t = .ok ()) :
    (¬ (zombieMark.isPrefixOf pt = true ∨ zombieMark.isPrefixOf ps = true) →
      cephContainerDelete B (fuel + 1) p v t
        = some (0, [Op.listSnapshots p v t, Op.getParent p v t,
            Op.volUnmap p v t, Op.volDelete p v t]))
    ∧ ((zombieMark.isPrefixOf pt = true ∨ zombieMark.isPrefixOf ps = true) →
      ∀ rS trS, engineRun B fuel (.snap p pn pt ps) = some (rS, trS) →
        cephContainerDelete B (fuel + 1) p v t
          = some ((if rS < 0 then -1 else 0),
              [Op.listSnapshots p v t, Op.getParent p v t,
                Op.volUnmap p v t, Op.volDelete p v t] ++ trS)) := by
  constructor
  · intro hno
    have hno2 : ¬ (zombieMark <+: pt ∨ zombieMark <+: ps) := by
      simpa using hno
    simp [cephContainerDelete, engineRun, hls, hgp, hpp, hum, hdl, hno2]
  · intro hyes rS trS hrun
    have hyes2 : zombieMark <+: pt ∨ zombieMark <+: ps := by
      simpa using hyes
    by_cases hr : rS < 0
    · simp [cephContainerDelete, engineRun, hls, hgp, hpp, hum, hdl, hyes2,
        hrun, hr]
    · simp [cephContainerDelete, engineRun, hls, hgp, hpp, hum, hdl, hyes2,
        hrun, hr]

/-- Witness for the amended C6 at the concrete C6 backend. -/
theorem claim_c6_witness :
    (backendC6.listSnapshots "p".data "v".data "container".data
        = .error .notFound
      ∧ backendC6.getParent "p".data "v".data "container".data
        = .ok "q/container_pv@zombie_ps".data
      ∧ parseParent "q/container_pv@zombie_ps".data
        = some ("q".data, "container".data, "pv".data, "zombie_ps".data)
      ∧ (zombieMark.isPrefixOf "container".data = true
          ∨ zombieMark.isPrefixOf "zombie_ps".data = true)
      ∧ engineRun backendC6 2
          (.snap "p".data "pv".data "container".data "zombie_ps".data)
        = some (0, [Op.listClones "p".data "pv".data "container".data
              "zombie_ps".data,
            Op.snapUnprotect "p".data "pv".data "container".data
              "zombie_ps".data,
            Op.snapUnmap "p".data "pv".data "container".data "zombie_ps".data,
            Op.snapDelete "p".data "pv".data "container".data
              "zombie_ps".data]))
    ∧ cephContainerDelete backendC6 3 "p".data "v".data "container".data
      = some ((if (0 : Int) < 0 then -1 else 0),
          [Op.listSnapshots "p".data "v".data "container".data,
            Op.getParent "p".data "v".data "container".data,
            Op.volUnmap "p".data "v".data "container".data,
            Op.volDelete "p".data "v".data "container".data]
          ++ [Op.listClones "p".data "pv".data "container".data
                "zombie_ps".data,
              Op.snapUnprotect "p".data "pv".data "container".data
                "zombie_ps".data,
              Op.snapUnmap "p".data "pv".data "container".data
                "zombie_ps".data,
              Op.snapDelete "p".data "pv".data "container".data
                "zombie_ps".data]) :=
  ⟨⟨rfl, rfl, by decide, Or.inr (by decide), by rfl⟩,
    (claim_c6_parent_sweep_amended backendC6 2 "p".data "v".data
      "container".data "q/container_pv@zombie_ps".data "q".data
      "container".data "pv".data "zombie_ps".data rfl rfl (by decide) rfl
      rfl).2 (Or.inr (by decide)) 0 _ (by rfl)⟩

theorem vdSnapLoop_trace_no (sd : GoStr → Option (Int × List Op)) (op : Op)
    (hsd : ∀ x r2 tr2, sd x = some (r2, tr2) → op ∉ tr2) :
    ∀ (l : List GoStr) (z : Nat) (res : LoopRes Nat),
      vdSnapLoop sd l z = some res → op ∉ res.trace := by
  intro l
  induction l with
  | nil =>
    intro z res hh
    simp only [vdSnapLoop, Option.some.injEq] at hh
    subst hh
    simp [LoopRes.trace]
  | cons snap rest ih =>
    intro z res hh
    simp only [vdSnapLoop] at hh
    cases hx : sd snap with
    | none => rw [hx] at hh; simp at hh
    | some pr =>
      obtain ⟨ret, trS⟩ := pr
      simp only [hx] at hh
      have hS : op ∉ trS := hsd snap ret trS hx
      by_cases hret : ret < 0
      · rw [if_pos hret] at hh
        obtain rfl := Option.some.inj hh
        simpa [LoopRes.trace] using hS
      · rw [if_neg hret] at hh
        cases hrec : vdSnapLoop sd rest (if ret = 1 then z + 1 else z) with
        | none => rw [hrec] at hh; simp at hh
        | some subres =>
          simp only [hrec] at hh
          have hSub := ih _ subres hrec
          cases subres with
          | fail tr2 =>
            obtain rfl := Option.some.inj hh
            simp only [LoopRes.trace] at hSub ⊢
            simp [List.mem_append, hS, hSub]
          | done zz tr2 =>
            obtain rfl := Option.some.inj hh
            simp only [LoopRes.trace] at hSub ⊢
            simp [List.mem_append, hS, hSub]

theorem sdCloneLoop_trace_no
    (vd : GoStr → GoStr → GoStr → Option (Int × List Op)) (op : Op)
    (hvd : ∀ x y z r2 tr2, vd x y z = some (r2, tr2) → op ∉ tr2) :
    ∀ (l : List GoStr) (acc : Bool) (res : LoopRes Bool),
      sdCloneLoop vd l acc = some res → op ∉ res.trace := by
  intro l
  induction l with
  | nil =>
    intro acc res hh
    simp only [sdCloneLoop, Option.some.injEq] at hh
    subst hh
    simp [LoopRes.trace]
  | cons clone rest ih =>
    intro acc res hh
    simp only [sdCloneLoop] at hh
    cases hp : parseClone clone with
    | none =>
      simp only [hp] at hh
      obtain rfl := Option.some.inj hh
      simp [LoopRes.trace]
    | some triple =>
      obtain ⟨cp, ct, cn⟩ := triple
      simp only [hp] at hh
      by_cases hz : zombieMark.isPrefixOf ct = true
      · rw [if_pos hz] at hh
        cases hv : vd cp cn ct with
        | none => rw [hv] at hh; simp at hh
        | some pr =>
          obtain ⟨ret, trV⟩ := pr
          simp only [hv] at hh
          have hV : op ∉ trV := hvd cp cn ct ret trV hv
          by_cases hret : ret < 0
          · rw [if_pos hret] at hh
            obtain rfl := Option.some.inj hh
            simpa [LoopRes.trace] using hV
          · rw [if_neg hret] at hh
            cases hrec : sdCloneLoop vd rest (if ret = 1 then false else acc) with
            | none => rw [hrec] at hh; simp at hh
            | some subres =>
              simp only [hrec] at hh
              have hSub := ih _ subres hrec
              cases subres with
              | fail tr2 =>
                obtain rfl := Option.some.inj hh
                simp only [LoopRes.trace] at hSub ⊢
                simp [List.mem_append, hV, hSub]
              | done b2 tr2 =>
                obtain rfl := Option.some.inj hh
                simp only [LoopRes.trace] at hSub ⊢
                simp [List.mem_append, hV, hSub]
      · rw [if_neg hz] at hh
        exact ih _ res hh

theorem sdCloneLoop_false_stays
    (vd : GoStr → GoStr → GoStr → Option (Int × List Op)) :
    ∀ (l : List GoStr) (b : Bool) (tr : List Op),
      sdCloneLoop vd l false = some (.done b tr) → b = false := by
  intro l
  induction l with
  | nil =>
    intro b tr hh
    simp only [sdCloneLoop, Option.some.injEq, LoopRes.done.injEq] at hh
    exact hh.1.symm
  | cons clone rest ih =>
    intro b tr hh
    simp only [sdCloneLoop] at hh
    cases hp : parseClone clone with
    | none => simp only [hp] at hh; simp at hh
    | some triple =>
      obtain ⟨cp, ct, cn⟩ := triple
      simp only [hp] at hh
      by_cases hz : zombieMark.isPrefixOf ct = true
      · rw [if_pos hz] at hh
        cases hv : vd cp cn ct with
        | none => rw [hv] at hh; simp at hh
        | some pr =>
          obtain ⟨ret, trV⟩ := pr
          simp only [hv] at hh
          by_cases hret : ret < 0
          · rw [if_pos hret] at hh; simp at hh
          · rw [if_neg hret] at hh
            cases hrec : sdCloneLoop vd rest (if ret = 1 then false else false) with
            | none => rw [hrec] at hh; simp at hh
            | some subres =>
              simp only [hrec] at hh
              cases subres with
              | fail tr2 => simp at hh
              | done b2 tr2 =>
                have hb2 : b2 = false := by
                  refine ih b2 tr2 ?_
                  rw [show (if ret = 1 then false else false) = false from ite_self false] at hrec
                  exact hrec
                simp only [Option.some.injEq, LoopRes.done.injEq] at hh
                obtain ⟨hb, _⟩ := hh
                subst hb
                exact hb2
      · rw [if_neg hz] at hh
        exact ih b tr hh

theorem sdCloneLoop_veto
    (vd : GoStr → GoStr → GoStr → Option (Int × List Op)) (c : GoStr)
    (hrange : ∀ x y z r2 tr2, vd x y z = some (r2, tr2) →
      r2 = -1 ∨ r2 = 0 ∨ r2 = 1)
    (hv : ∀ cp ct cn, parseClone c = some (cp, ct, cn) →
      zombieMark.isPrefixOf ct = true →
      ∀ tr2, vd cp cn ct ≠ some (0, tr2)) :
    ∀ (l : List GoStr), c ∈ l → ∀ (acc b : Bool) (tr : List Op),
      sdCloneLoop vd l acc = some (.done b tr) → b = false := by
  intro l
  induction l with
  | nil => intro hc; exact absurd hc (List.not_mem_nil c)
  | cons c0 rest ih =>
    intro hc acc b tr hh
    simp only [sdCloneLoop] at hh
    cases hp : parseClone c0 with
    | none => simp only [hp] at hh; simp at hh
    | some triple =>
      obtain ⟨cp, ct, cn⟩ := triple
      simp only [hp] at hh
      by_cases hz : zombieMark.isPrefixOf ct = true
      · rw [if_pos hz] at hh
        cases hvv : vd cp cn ct with
        | none => rw [hvv] at hh; simp at hh
        | some pr =>
          obtain ⟨ret, trV⟩ := pr
          simp only [hvv] at hh
          by_cases hret : ret < 0
          · rw [if_pos hret] at hh; simp at hh
          · rw [if_neg hret] at hh
            cases hrec : sdCloneLoop vd rest (if ret = 1 then false else acc) with
            | none => rw [hrec] at hh; simp at hh
            | some subres =>
              simp only [hrec] at hh
              cases subres with
              | fail tr2 => simp at hh
              | done b2 tr2 =>
                simp only [Option.some.injEq, LoopRes.done.injEq] at hh
                obtain ⟨hb, _⟩ := hh
                subst hb
                rcases List.mem_cons.mp hc with hceq | hcr
                · subst hceq
                  have hne0 : ret ≠ 0 := by
                    intro h0
                    subst h0
                    exact hv cp ct cn hp hz trV hvv
                  have h1 : ret = 1 := by
                    rcases hrange cp cn ct ret trV hvv with hr | hr | hr
                    · exact absurd (by rw [hr]; norm_num) hret
                    · exact absurd hr hne0
                    · exact hr
                  rw [h1] at hrec
                  refine sdCloneLoop_false_stays vd rest b2 tr2 ?_
                  simpa using hrec
                · exact ih hcr _ b2 tr2 hrec
      · rw [if_neg hz] at hh
        rcases List.mem_cons.mp hc with hceq | hcr
        · exact sdCloneLoop_false_stays vd rest b tr hh
        · exact ih hcr false b tr hh

theorem engineRun_ret_range (B : Backend) (fuel : Nat) (call : Call)
    (r : Int) (tr : List Op) (h : engineRun B fuel call = some (r, tr)) :
    r = -1 ∨ r = 0 ∨ r = 1 := by
  cases fuel with
  | zero => simp [engineRun] at h
  | succ fuel =>
    cases call with
    | vol p1 v1 t1 =>
      simp only [engineRun] at h
      repeat' split at h
      all_goals simp_all
    | snap p1 v1 t1 s1 =>
      simp only [engineRun] at h
      repeat' split at h
      all_goals simp_all

/-- Core invariant behind C3: if the target snapshot has a clone list
that is not `NoSuchObjectError` and some clone of it vetoes deletion
(unparseable, not zombie-prefixed, or its recursive volume deletion
never returns `0`), then no engine execution, from either entry point
and at any fuel, ever issues the physical delete of that snapshot. -/
theorem snapDelete_not_mem (B : Backend) (p v t s : GoStr)
    (hveto : B.listClones p v t s = .error .backendErr
      ∨ ∃ cs, B.listClones p v t s = .ok cs ∧ ∃ c ∈ cs,
          ¬ ∃ cp ct cn, parseClone c = some (cp, ct, cn)
            ∧ zombieMark.isPrefixOf ct = true
            ∧ ∃ f tr2, engineRun B f (.vol cp cn ct) = some (0, tr2)) :
    ∀ (fuel : Nat) (call : Call) (r : Int) (tr : List Op),
      engineRun B fuel call = some (r, tr) → Op.snapDelete p v t s ∉ tr := by
  intro fuel
  induction fuel with
  | zero => intro call r tr h; simp [engineRun] at h
  | succ fuel ih =>
    intro call r tr h
    have hsd : ∀ (q1 q2 q3 x : GoStr) (r2 : Int) (tr2 : List Op),
        engineRun B fuel (.snap q1 q2 q3 x) = some (r2, tr2) →
          Op.snapDelete p v t s ∉ tr2 :=
      fun q1 q2 q3 x r2 tr2 hx => ih (.snap q1 q2 q3 x) r2 tr2 hx
    have hvd : ∀ (x y z : GoStr) (r2 : Int) (tr2 : List Op),
        engineRun B fuel (.vol x y z) = some (r2, tr2) →
          Op.snapDelete p v t s ∉ tr2 :=
      fun x y z r2 tr2 hx => ih (.vol x y z) r2 tr2 hx
    cases call with
    | vol p1 v1 t1 =>
      simp only [engineRun] at h
      cases hls : B.listSnapshots p1 v1 t1 with
      | ok snaps =>
        simp only [hls] at h
        cases hloop : vdSnapLoop
            (fun snap => engineRun B fuel (Call.snap p1 v1 t1 snap)) snaps 0 with
        | none => rw [hloop] at h; simp at h
        | some res =>
          have hLoop : Op.snapDelete p v t s ∉ res.trace :=
            vdSnapLoop_trace_no _ _
              (fun x r2 tr2 hx => hsd p1 v1 t1 x r2 tr2 hx) snaps 0 res hloop
          cases res with
          | fail tr1 =>
            simp only [LoopRes.trace] at hLoop
            simp only [hloop] at h
            simp only [Option.some.injEq, Prod.mk.injEq] at h
            obtain ⟨rfl, rfl⟩ := h
            simp [List.mem_cons, hLoop]
          | done z tr1 =>
            simp only [LoopRes.trace] at hLoop
            simp only [hloop] at h
            by_cases hz : z > 0
            · rw [if_pos hz] at h
              cases hum : B.volUnmap p1 v1 t1 with
              | error e2 =>
                simp only [hum] at h
                simp only [Option.some.injEq, Prod.mk.injEq] at h
                obtain ⟨rfl, rfl⟩ := h
                simp [List.mem_cons, List.mem_append, hLoop]
              | ok u =>
                simp only [hum] at h
                by_cases hzp : zombieMark.isPrefixOf t1 = true
                · rw [if_pos hzp] at h
                  simp only [Option.some.injEq, Prod.mk.injEq] at h
                  obtain ⟨rfl, rfl⟩ := h
                  simp [List.mem_cons, List.mem_append, hLoop]
                · rw [if_neg hzp] at h
                  cases hmd : B.volMarkDeleted p1 v1 t1 with
                  | error e2 =>
                    simp only [hmd] at h
                    simp only [Option.some.injEq, Prod.mk.injEq] at h
                    obtain ⟨rfl, rfl⟩ := h
                    simp [List.mem_cons, List.mem_append, hLoop]
                  | ok u2 =>
                    simp only [hmd] at h
                    simp only [Option.some.injEq, Prod.mk.injEq] at h
                    obtain ⟨rfl, rfl⟩ := h
                    simp [List.mem_cons, List.mem_append, hLoop]
            · rw [if_neg hz] at h
              simp only [Option.some.injEq, Prod.mk.injEq] at h
              obtain ⟨rfl, rfl⟩ := h
              simp [List.mem_cons, hLoop]
      | error e =>
        simp only [hls] at h
        by_cases he : e = BErr.notFound
        · rw [if_neg (not_not_intro he)] at h
          cases hgp : B.getParent p1 v1 t1 with
          | ok parent =>
            simp only [hgp] at h
            cases hpp : parseParent parent with
            | none =>
              simp only [hpp] at h
              simp only [Option.some.injEq, Prod.mk.injEq] at h
              obtain ⟨rfl, rfl⟩ := h
              simp
            | some quad =>
              obtain ⟨pp, pt, pn, ps2⟩ := quad
              simp only [hpp] at h
              cases hum : B.volUnmap p1 v1 t1 with
              | error e2 =>
                simp only [hum] at h
                simp only [Option.some.injEq, Prod.mk.injEq] at h
                obtain ⟨rfl, rfl⟩ := h
                simp
              | ok u =>
                simp only [hum] at h
                cases hdl : B.volDelete p1 v1 t1 with
                | error e2 =>
                  simp only [hdl] at h
                  simp only [Option.some.injEq, Prod.mk.injEq] at h
                  obtain ⟨rfl, rfl⟩ := h
                  simp
                | ok u2 =>
                  simp only [hdl] at h
                  by_cases hzz : zombieMark.isPrefixOf pt = true
                      ∨ zombieMark.isPrefixOf ps2 = true
                  · rw [if_pos hzz] at h
                    cases hrec : engineRun B fuel (Call.snap p1 pn pt ps2) with
                    | none => rw [hrec] at h; simp at h
                    | some pr =>
                      obtain ⟨ret, trS⟩ := pr
                      simp only [hrec] at h
                      have hS : Op.snapDelete p v t s ∉ trS :=
                        hsd p1 pn pt ps2 ret trS hrec
                      by_cases hret : ret < 0
                      · rw [if_pos hret] at h
                        simp only [Option.some.injEq, Prod.mk.injEq] at h
                        obtain ⟨rfl, rfl⟩ := h
                        simp [List.mem_cons, List.mem_append, hS]
                      · rw [if_neg hret] at h
                        simp only [Option.some.injEq, Prod.mk.injEq] at h
                        obtain ⟨rfl, rfl⟩ := h
                        simp [List.mem_cons, List.mem_append, hS]
                  · rw [if_neg hzz] at h
                    simp only [Option.some.injEq, Prod.mk.injEq] at h
                    obtain ⟨rfl, rfl⟩ := h
                    simp
          | error e2 =>
            simp only [hgp] at h
            by_cases he2 : e2 = BErr.notFound
            · rw [if_neg (not_not_intro he2)] at h
              cases hum : B.volUnmap p1 v1 t1 with
              | error e3 =>
                simp only [hum] at h
                simp only [Option.some.injEq, Prod.mk.injEq] at h
                obtain ⟨rfl, rfl⟩ := h
                simp
              | ok u =>
                simp only [hum] at h
                cases hdl : B.volDelete p1 v1 t1 with
                | error e3 =>
                  simp only [hdl] at h
                  simp only [Option.some.injEq, Prod.mk.injEq] at h
                  obtain ⟨rfl, rfl⟩ := h
                  simp
                | ok u2 =>
                  simp only [hdl] at h
                  simp only [Option.some.injEq, Prod.mk.injEq] at h
                  obtain ⟨rfl, rfl⟩ := h
                  simp
            · rw [if_pos he2] at h
              simp only [Option.some.injEq, Prod.mk.injEq] at h
              obtain ⟨rfl, rfl⟩ := h
              simp
        · rw [if_pos he] at h
          simp only [Option.some.injEq, Prod.mk.injEq] at h
          obtain ⟨rfl, rfl⟩ := h
          simp
    | snap p1 v1 t1 s1 =>
      by_cases hargs : p1 = p ∧ v1 = v ∧ t1 = t ∧ s1 = s
      · obtain ⟨rfl, rfl, rfl, rfl⟩ := hargs
        simp only [engineRun] at h
        rcases hveto with hbe | ⟨cs, hcs, c, hc, hnv⟩
        · simp only [hbe] at h
          rw [if_pos (show BErr.backendErr ≠ BErr.notFound by decide)] at h
          simp only [Option.some.injEq, Prod.mk.injEq] at h
          obtain ⟨rfl, rfl⟩ := h
          simp
        · simp only [hcs] at h
          cases hloop : sdCloneLoop
              (fun cPool cName cType => engineRun B fuel (Call.vol cPool cName cType))
              cs true with
          | none => rw [hloop] at h; simp at h
          | some res =>
            have hLoop : Op.snapDelete p1 v1 t1 s1 ∉ res.trace :=
              sdCloneLoop_trace_no _ _
                (fun x y z r2 tr2 hx => hvd x y z r2 tr2 hx) cs true res hloop
            cases res with
            | fail tr1 =>
              simp only [LoopRes.trace] at hLoop
              simp only [hloop] at h
              simp only [Option.some.injEq, Prod.mk.injEq] at h
              obtain ⟨rfl, rfl⟩ := h
              simp [List.mem_cons, hLoop]
            | done b tr1 =>
              simp only [LoopRes.trace] at hLoop
              simp only [hloop] at h
              have hb : b = false := by
                refine sdCloneLoop_veto _ c
                  (fun x y z r2 tr2 hx =>
                    engineRun_ret_range B fuel (.vol x y z) r2 tr2 hx)
                  (fun cp ct cn hpar hzz tr2 hx =>
                    hnv ⟨cp, ct, cn, hpar, hzz, fuel, tr2, hx⟩)
                  cs hc true b tr1 hloop
              subst hb
              rw [if_neg (show ¬ (false = true) by simp)] at h
              by_cases hzs : zombieMark.isPrefixOf s1 = true
              · rw [if_pos hzs] at h
                simp only [Option.some.injEq, Prod.mk.injEq] at h
                obtain ⟨rfl, rfl⟩ := h
                simp [List.mem_cons, hLoop]
              · rw [if_neg hzs] at h
                cases humS : B.snapUnmap p1 v1 t1 s1 with
                | error e2 =>
                  simp only [humS] at h
                  simp only [Option.some.injEq, Prod.mk.injEq] at h
                  obtain ⟨rfl, rfl⟩ := h
                  simp [List.mem_cons, List.mem_append, hLoop]
                | ok u =>
                  simp only [humS] at h
                  cases hrn : B.snapRename p1 v1 t1 s1 (zombieMark ++ s1) with
                  | error e2 =>
                    simp only [hrn] at h
                    simp only [Option.some.injEq, Prod.mk.injEq] at h
                    obtain ⟨rfl, rfl⟩ := h
                    simp [List.mem_cons, List.mem_append, hLoop]
                  | ok u2 =>
                    simp only [hrn] at h
                    simp only [Option.some.injEq, Prod.mk.injEq] at h
                    obtain ⟨rfl, rfl⟩ := h
                    simp [List.mem_cons, List.mem_append, hLoop]
      · have hne : Op.snapDelete p v t s ≠ Op.snapDelete p1 v1 t1 s1 := by
          intro hE
          injection hE with h1 h2 h3 h4
          exact hargs ⟨h1.symm, h2.symm, h3.symm, h4.symm⟩
        simp only [engineRun] at h
        cases hcl : B.listClones p1 v1 t1 s1 with
        | error e =>
          simp only [hcl] at h
          by_cases he : e = BErr.notFound
          · rw [if_neg (not_not_intro he)] at h
            cases hup : B.snapUnprotect p1 v1 t1 s1 with
            | error e2 =>
              simp only [hup] at h
              simp only [Option.some.injEq, Prod.mk.injEq] at h
              obtain ⟨rfl, rfl⟩ := h
              simp
            | ok u =>
              simp only [hup] at h
              cases humS : B.snapUnmap p1 v1 t1 s1 with
              | error e2 =>
                simp only [humS] at h
                simp only [Option.some.injEq, Prod.mk.injEq] at h
                obtain ⟨rfl, rfl⟩ := h
                simp
              | ok u2 =>
                simp only [humS] at h
                cases hdlS : B.snapDelete p1 v1 t1 s1 with
                | error e2 =>
                  simp only [hdlS] at h
                  simp only [Option.some.injEq, Prod.mk.injEq] at h
                  obtain ⟨rfl, rfl⟩ := h
                  simp [List.mem_cons, hne]
                | ok u3 =>
                  simp only [hdlS] at h
                  by_cases hzt : zombieMark.isPrefixOf t1 = true
                  · rw [if_pos hzt] at h
                    cases hrec : engineRun B fuel (Call.vol p1 v1 t1) with
                    | none => rw [hrec] at h; simp at h
                    | some pr =>
                      obtain ⟨ret, trV⟩ := pr
                      simp only [hrec] at h
                      have hV : Op.snapDelete p v t s ∉ trV :=
                        hvd p1 v1 t1 ret trV hrec
                      by_cases hret : ret < 0
                      · rw [if_pos hret] at h
                        simp only [Option.some.injEq, Prod.mk.injEq] at h
                        obtain ⟨rfl, rfl⟩ := h
                        simp [List.mem_cons, List.mem_append, hne, hV]
                      · rw [if_neg hret] at h
                        simp only [Option.some.injEq, Prod.mk.injEq] at h
                        obtain ⟨rfl, rfl⟩ := h
                        simp [List.mem_cons, List.mem_append, hne, hV]
                  · rw [if_neg hzt] at h
                    simp only [Option.some.injEq, Prod.mk.injEq] at h
                    obtain ⟨rfl, rfl⟩ := h
                    simp [List.mem_cons, hne]
          · rw [if_pos he] at h
            simp only [Option.some.injEq, Prod.mk.injEq] at h
            obtain ⟨rfl, rfl⟩ := h
            simp
        | ok clones =>
          simp only [hcl] at h
          cases hloop : sdCloneLoop
              (fun cPool cName cType => engineRun B fuel (Call.vol cPool cName cType))
              clones true with
          | none => rw [hloop] at h; simp at h
          | some res =>
            have hLoop : Op.snapDelete p v t s ∉ res.trace :=
              sdCloneLoop_trace_no _ _
                (fun x y z r2 tr2 hx => hvd x y z r2 tr2 hx) clones true res hloop
            cases res with
            | fail tr1 =>
              simp only [LoopRes.trace] at hLoop
              simp only [hloop] at h
              simp only [Option.some.injEq, Prod.mk.injEq] at h
              obtain ⟨rfl, rfl⟩ := h
              simp [List.mem_cons, hLoop]
            | done b tr1 =>
              simp only [LoopRes.trace] at hLoop
              simp only [hloop] at h
              cases b with
              | true =>
                rw [if_pos rfl] at h
                cases hup : B.snapUnprotect p1 v1 t1 s1 with
                | error e2 =>
                  simp only [hup] at h
                  simp only [Option.some.injEq, Prod.mk.injEq] at h
                  obtain ⟨rfl, rfl⟩ := h
                  simp [List.mem_cons, List.mem_append, hLoop]
                | ok u =>
                  simp only [hup] at h
                  cases humS : B.snapUnmap p1 v1 t1 s1 with
                  | error e2 =>
                    simp only [humS] at h
                    simp only [Option.some.injEq, Prod.mk.injEq] at h
                    obtain ⟨rfl, rfl⟩ := h
                    simp [List.mem_cons, List.mem_append, hLoop]
                  | ok u2 =>
                    simp only [humS] at h
                    cases hdlS : B.snapDelete p1 v1 t1 s1 with
                    | error e2 =>
                      simp only [hdlS] at h
                      simp only [Option.some.injEq, Prod.mk.injEq] at h
                      obtain ⟨rfl, rfl⟩ := h
                      simp [List.mem_cons, List.mem_append, hLoop, hne]
                    | ok u3 =>
                      simp only [hdlS] at h
                      by_cases hzt : zombieMark.isPrefixOf t1 = true
                      · rw [if_pos hzt] at h
                        cases hrec : engineRun B fuel (Call.vol p1 v1 t1) with
                        | none => rw [hrec] at h; simp at h
                        | some pr =>
                          obtain ⟨ret, trV⟩ := pr
                          simp only [hrec] at h
                          have hV : Op.snapDelete p v t s ∉ trV :=
                            hvd p1 v1 t1 ret trV hrec
                          by_cases hret : ret < 0
                          · rw [if_pos hret] at h
                            simp only [Option.some.injEq, Prod.mk.injEq] at h
                            obtain ⟨rfl, rfl⟩ := h
                            simp [List.mem_cons, List.mem_append, hLoop, hne, hV]
                          · rw [if_neg hret] at h
                            simp only [Option.some.injEq, Prod.mk.injEq] at h
                            obtain ⟨rfl, rfl⟩ := h
                            simp [List.mem_cons, List.mem_append, hLoop, hne, hV]
                      · rw [if_neg hzt] at h
                        simp only [Option.some.injEq, Prod.mk.injEq] at h
                        obtain ⟨rfl, rfl⟩ := h
                        simp [List.mem_cons, List.mem_append, hLoop, hne]
              | false =>
                rw [if_neg (show ¬ (false = true) by simp)] at h
                by_cases hzs : zombieMark.isPrefixOf s1 = true
                · rw [if_pos hzs] at h
                  simp only [Option.some.injEq, Prod.mk.injEq] at h
                  obtain ⟨rfl, rfl⟩ := h
                  simp [List.mem_cons, hLoop]
                · rw [if_neg hzs] at h
                  cases humS : B.snapUnmap p1 v1 t1 s1 with
                  | error e2 =>
                    simp only [humS] at h
                    simp only [Option.some.injEq, Prod.mk.injEq] at h
                    obtain ⟨rfl, rfl⟩ := h
                    simp [List.mem_cons, List.mem_append, hLoop]
                  | ok u =>
                    simp only [humS] at h
                    cases hrn : B.snapRename p1 v1 t1 s1 (zombieMark ++ s1) with
                    | error e2 =>
                      simp only [hrn] at h
                      simp only [Option.some.injEq, Prod.mk.injEq] at h
                      obtain ⟨rfl, rfl⟩ := h
                      simp [List.mem_cons, List.mem_append, hLoop]
                    | ok u2 =>
                      simp only [hrn] at h
                      simp only [Option.some.injEq, Prod.mk.injEq] at h
                      obtain ⟨rfl, rfl⟩ := h
                      simp [List.mem_cons, List.mem_append, hLoop]

/-- C3.  Snapshot-delete invariant: in any engine execution (either
entry point, any fuel, any backend) that issues the physical delete of
a snapshot, that snapshot's clone enumeration either returned
`NoSuchObjectError`, or returned a clone list in which every clone
parses, is zombie-prefixed, and has a recursive `cephContainerDelete`
that returns `0` (Deleted).  Equivalently, a single non-zombie clone,
or a zombie clone whose recursive deletion does not come back as
Deleted, prevents the physical deletion of the snapshot. -/
theorem claim_c3_snapshot_delete_invariant (B : Backend) (fuel : Nat)
    (call : Call) (r : Int) (tr : List Op) (p v t s : GoStr)
    (hrun : engineRun B fuel call = some (r, tr))
    (hmem : Op.snapDelete p v t s ∈ tr) :
    B.listClones p v t s = .error .notFound
    ∨ ∃ cs, B.listClones p v t s = .ok cs ∧
        ∀ c ∈ cs, ∃ cp ct cn, parseClone c = some (cp, ct, cn)
          ∧ zombieMark.isPrefixOf ct = true
          ∧ ∃ f tr2, cephContainerDelete B f cp cn ct = some (0, tr2) := by
  cases hcl : B.listClones p v t s with
  | error e =>
    cases e with
    | notFound => exact Or.inl rfl
    | backendErr =>
      exact absurd hmem
        (snapDelete_not_mem B p v t s (Or.inl hcl) fuel call r tr hrun)
  | ok cs =>
    by_cases hall : ∀ c ∈ cs, ∃ cp ct cn, parseClone c = some (cp, ct, cn)
        ∧ zombieMark.isPrefixOf ct = true
        ∧ ∃ f tr2, cephContainerDelete B f cp cn ct = some (0, tr2)
    · exact Or.inr ⟨cs, rfl, hall⟩
    · obtain ⟨c, hcnot⟩ := not_forall.mp hall
      obtain ⟨hc, hnv⟩ := Classical.not_imp.mp hcnot
      exact absurd hmem
        (snapDelete_not_mem B p v t s (Or.inr ⟨cs, hcl, c, hc, hnv⟩)
          fuel call r tr hrun)

/-- Witness for C3 on the concrete C1 backend, where the snapshot is
physically deleted and its single clone is zombie-prefixed and fully
swept. -/
theorem claim_c3_witness :
    (engineRun backendC1 3
        (.snap "p".data "v".data "container".data "s0".data)
      = some (1, traceC1)
      ∧ Op.snapDelete "p".data "v".data "container".data "s0".data ∈ traceC1)
    ∧ (backendC1.listClones "p".data "v".data "container".data "s0".data
        = .error .notFound
      ∨ ∃ cs, backendC1.listClones "p".data "v".data "container".data
            "s0".data = .ok cs ∧
          ∀ c ∈ cs, ∃ cp ct cn, parseClone c = some (cp, ct, cn)
            ∧ zombieMark.isPrefixOf ct = true
            ∧ ∃ f tr2, cephContainerDelete backendC1 f cp cn ct
              = some (0, tr2)) :=
  ⟨⟨by rfl, by decide⟩,
    claim_c3_snapshot_delete_invariant backendC1 3
      (.snap "p".data "v".data "container".data "s0".data) 1 traceC1
      "p".data "v".data "container".data "s0".data (by rfl) (by decide)⟩
